import Mathlib

/-!
# Verification of the patient scheduler (`src/app.py`)

A shallow embedding of the Flask appointment scheduler in `app.py`:
the in-memory appointment collection, the Excel-file persistence helpers
(`load_excel`, `save_excel`), the per-hour capacity counter
(`count_in_hour`) and the three HTTP handlers of `/api/appointments`
(GET, POST, DELETE), together with theorems settling the specification
claims about them.

Machine-level conventions: Python strings are Lean `String`s; a JSON
body is a record of `Option String` fields (`none` = key absent);
exceptions become `Option`/sum results; the sources of nondeterminism of
a request (the fresh `uuid4`, the `utcnow()` timestamp, the name chosen
by `tempfile.mkstemp`, and whether the file system faults during the
workbook write) are explicit parameters.
-/

/-! ## Python string trimming

`str.strip()` with no argument removes leading and trailing whitespace.
We model the ASCII whitespace characters Python strips. -/

def pyWhitespace (c : Char) : Bool :=
  c = ' ' || c = '\t' || c = '\n' || c = '\r' || c = '\x0b' || c = '\x0c'

/-- Model of Python `str.strip()`: drop whitespace from both ends. -/
def pyStrip (s : String) : String :=
  ⟨((s.data.dropWhile pyWhitespace).reverse.dropWhile pyWhitespace).reverse⟩

/-! ## Python `datetime.fromisoformat`

`app.py` parses every datetime with `datetime.fromisoformat` (the
configured `DATETIME_FORMAT` constant is never passed to any parser).
We model CPython's documented pre-3.11 grammar: a mandatory 10-character
`YYYY-MM-DD` date; optionally one separator character (any character)
followed by a time `HH[:MM[:SS[.fff[fff]]]]`, optionally followed by an
offset `±HH:MM[:SS[.ffffff]]`.  Component ranges are validated as the
`datetime` constructor does. -/

structure PyDateTime where
  year : Nat
  month : Nat
  day : Nat
  hour : Nat
  minute : Nat
  second : Nat
deriving DecidableEq, Repr

def digitVal (c : Char) : Nat := c.toNat - 48

/-- Read exactly two leading digits. -/
def digit2 : List Char → Option (Nat × List Char)
  | a :: b :: rest =>
    if a.isDigit && b.isDigit then some (10 * digitVal a + digitVal b, rest) else none
  | _ => none

def natOfDigits (cs : List Char) : Nat :=
  cs.foldl (fun n c => 10 * n + digitVal c) 0

def isLeapYear (y : Nat) : Bool :=
  (y % 4 = 0 && y % 100 != 0) || y % 400 = 0

def daysInMonth (y m : Nat) : Nat :=
  if m = 2 then (if isLeapYear y then 29 else 28)
  else if m = 4 || m = 6 || m = 9 || m = 11 then 30
  else 31

/-- `_parse_isoformat_date`: exactly `YYYY-MM-DD`, with the ranges the
`datetime` constructor enforces (`MINYEAR = 1`, `MAXYEAR = 9999`). -/
def parse_isoformat_date (cs : List Char) : Option (Nat × Nat × Nat) :=
  match cs with
  | [y1, y2, y3, y4, s1, m1, m2, s2, d1, d2] =>
    if y1.isDigit && y2.isDigit && y3.isDigit && y4.isDigit &&
        s1 = '-' && m1.isDigit && m2.isDigit && s2 = '-' && d1.isDigit && d2.isDigit then
      let y := natOfDigits [y1, y2, y3, y4]
      let m := 10 * digitVal m1 + digitVal m2
      let d := 10 * digitVal d1 + digitVal d2
      if 1 ≤ y && 1 ≤ m && m ≤ 12 && 1 ≤ d && d ≤ daysInMonth y m then
        some (y, m, d)
      else none
    else none
  | _ => none

/-- Index of the first occurrence of `c`, as Python `str.find`. -/
def findChar (c : Char) : List Char → Option Nat
  | [] => none
  | x :: rest =>
    if x = c then some 0 else (findChar c rest).map (· + 1)

/-- The timezone split of `_parse_isoformat_time`: the offset starts at
the first `-` of the time string if any, else at the first `+`. -/
def tzSplit (cs : List Char) : List Char × Option (List Char) :=
  match findChar '-' cs with
  | some i => (cs.take i, some (cs.drop (i + 1)))
  | none =>
    match findChar '+' cs with
    | some i => (cs.take i, some (cs.drop (i + 1)))
    | none => (cs, none)

/-- `_parse_hh_mm_ss_ff`: `HH[:MM[:SS[.fff[fff]]]]`, returning
(hour, minute, second, microsecond-digits value). -/
def parse_hh_mm_ss_ff (cs : List Char) : Option (Nat × Nat × Nat × Nat) :=
  match digit2 cs with
  | none => none
  | some (hh, r1) =>
    match r1 with
    | [] => some (hh, 0, 0, 0)
    | ':' :: r2 =>
      match digit2 r2 with
      | none => none
      | some (mm, r3) =>
        match r3 with
        | [] => some (hh, mm, 0, 0)
        | ':' :: r4 =>
          match digit2 r4 with
          | none => none
          | some (ss, r5) =>
            match r5 with
            | [] => some (hh, mm, ss, 0)
            | '.' :: r6 =>
              if (r6.length = 3 || r6.length = 6) && r6.all Char.isDigit then
                some (hh, mm, ss, natOfDigits r6)
              else none
            | _ => none
        | _ => none
    | _ => none

/-- `_parse_isoformat_time` followed by the `datetime` constructor's
range checks; the offset value does not affect the stored (naive) time
components, so only its well-formedness is checked. -/
def parse_isoformat_time (cs : List Char) : Option (Nat × Nat × Nat) :=
  if cs.length < 2 then none
  else
    let (timestr, tzstr?) := tzSplit cs
    match parse_hh_mm_ss_ff timestr with
    | none => none
    | some (h, m, s, _) =>
      if h ≤ 23 && m ≤ 59 && s ≤ 59 then
        match tzstr? with
        | none => some (h, m, s)
        | some tzstr =>
          if tzstr.length = 5 || tzstr.length = 8 || tzstr.length = 15 then
            match parse_hh_mm_ss_ff tzstr with
            | none => none
            | some (th, tm, ts, _) =>
              if th ≤ 23 && tm ≤ 59 && ts ≤ 59 then some (h, m, s) else none
          else none
      else none

/-- Model of `datetime.fromisoformat` (pre-3.11 CPython): characters
0–9 must be the date, character 10 (if present) is an arbitrary
separator, characters from 11 on are the time (midnight if empty). -/
def fromisoformat (s : String) : Option PyDateTime :=
  let cs := s.data
  match parse_isoformat_date (cs.take 10) with
  | none => none
  | some (y, m, d) =>
    let tstr := cs.drop 11
    if tstr.isEmpty then some ⟨y, m, d, 0, 0, 0⟩
    else
      match parse_isoformat_time tstr with
      | none => none
      | some (hh, mi, ss) => some ⟨y, m, d, hh, mi, ss⟩

/-! ## Data model and configuration constants (`app.py` lines 20–28) -/

def EXCEL_FILE : String := "appointments.xlsx"

def MAX_PER_HOUR : Nat := 4

/-- Declared in the config block of `app.py` but never passed to any
parsing call: every parse in the program uses `datetime.fromisoformat`. -/
def DATETIME_FORMAT : String := "%Y-%m-%dT%H:%M"

/-- An appointment record: the dict built in the POST handler /
loaded from a spreadsheet row.  All six values are strings. -/
structure Appt where
  id : String
  name : String
  address : String
  reason : String
  datetime : String
  created_at : String
deriving DecidableEq, Repr

def HEADERS : List String := ["id", "name", "address", "reason", "datetime", "created_at"]

/-- The (year, month, day, hour) capacity bucket of a parsed datetime. -/
def bucket (d : PyDateTime) : Nat × Nat × Nat × Nat :=
  (d.year, d.month, d.day, d.hour)

/-- The bucket of a stored record, when its `datetime` field parses. -/
def apptBucket (a : Appt) : Option (Nat × Nat × Nat × Nat) :=
  (fromisoformat a.datetime).map bucket

/-- The loop body of `count_in_hour`: walk the collection, skip records
whose `datetime` does not parse, count those in bucket of `dt`. -/
def countBucket (dt : PyDateTime) : List Appt → Nat
  | [] => 0
  | a :: rest =>
    (match fromisoformat a.datetime with
     | none => 0
     | some adt => if bucket adt = bucket dt then 1 else 0) + countBucket dt rest

/-- `count_in_hour(dt_iso)` (`app.py` lines 55–68): 0 if the candidate
does not parse, else the number of records in the candidate's bucket. -/
def count_in_hour (dt_iso : String) (appointments : List Appt) : Nat :=
  match fromisoformat dt_iso with
  | none => 0
  | some dt => countBucket dt appointments

/-! ## The file system and the Excel helpers (`app.py` lines 31–53)

A workbook is its header row plus its data rows; the file system is an
association list from paths to workbooks, newest entry first.

A data cell is `Option String`: `some v` is a cell holding the
(non-empty) string `v`, `none` is a valueless cell.  openpyxl persists
a cell whose assigned value is the empty string (or `None`) as a
valueless cell, and `iter_rows(values_only=True)` reads a valueless
cell back as Python `None` — so `""` never survives a save/load round
trip as `""`.  The header cells are the `HEADERS` strings, all
non-empty, kept as plain strings. -/

abbrev Cell := Option String

/-- What openpyxl persists for a string value assigned to a cell: the
string itself, or no value at all when it is empty. -/
def cellOf (v : String) : Cell :=
  if v = "" then none else some v

structure ExcelFile where
  header : List String
  rows : List (List Cell)
deriving DecidableEq, Repr

abbrev FSys := List (String × ExcelFile)

/-- Content of the file at `p`, `none` when no such file exists. -/
def fsRead (fs : FSys) (p : String) : Option ExcelFile :=
  match fs with
  | [] => none
  | (q, c) :: rest => if q = p then some c else fsRead rest p

/-- Remove every entry for path `p`. -/
def fsErase (fs : FSys) (p : String) : FSys :=
  fs.filter (fun e => e.1 ≠ p)

/-- Create or overwrite the file at `p`. -/
def fsWrite (fs : FSys) (p : String) (c : ExcelFile) : FSys :=
  (p, c) :: fs

/-- `os.replace(src, dst)`: atomically move `src` over `dst`.
`os.replace` raises if `src` is missing; `save_excel` calls it right
after writing `src`, so that branch is unreachable there and we leave
the file system unchanged in it. -/
def os_replace (fs : FSys) (src dst : String) : FSys :=
  match fsRead fs src with
  | none => fs
  | some c => fsWrite (fsErase fs src) dst c

/-- The temp path chosen by `tempfile.mkstemp(prefix="appts-",
suffix=".xlsx")`.  No `dir` argument is passed, so the file is created
in the system default temporary directory (`tempfile.gettempdir()`,
`/tmp` on the POSIX hosts modelled here), not next to `EXCEL_FILE`;
`n` stands for the OS's choice of the unique middle part. -/
def mkstemp_path (n : Nat) : String :=
  "/tmp/appts-" ++ (toString n ++ ".xlsx")

/-- POSIX `os.path.dirname`: everything before the final slash. -/
def posix_dirname (p : String) : String :=
  match findChar '/' p.data.reverse with
  | none => ""
  | some i => ⟨(p.data.take (p.data.length - 1 - i))⟩

/-- The row `save_excel` appends for a record: `[a[h] for h in HEADERS]`. -/
def appt_row (a : Appt) : List String :=
  [a.id, a.name, a.address, a.reason, a.datetime, a.created_at]

/-- Result of `save_excel`: the new file system, or — when the workbook
write onto the temp file raises (disk full, permission denied, …) — the
file system at the moment of the exception. -/
inductive SaveResult
  | ok (fs : FSys)
  | failed (fs : FSys)
deriving DecidableEq, Repr

/-- The file system carried by either `SaveResult` constructor. -/
def fsOf : SaveResult → FSys
  | .ok fs => fs
  | .failed fs => fs

/-- `save_excel()` (`app.py` lines 44–53): build a workbook holding the
header row and one row per appointment — each stored field becomes a
cell via `cellOf`, since openpyxl writes an empty-string value as a
valueless cell — create a fresh temp file with `mkstemp` (and close
its descriptor), save the workbook to the temp path, and `os.replace`
it over `EXCEL_FILE`.  `tmpIdx` is the OS's temp-name choice; `fault`
injects an exception during `wb.save`. -/
def save_excel (tmpIdx : Nat) (fault : Bool) (appointments : List Appt)
    (fs : FSys) : SaveResult :=
  let wb : ExcelFile := ⟨HEADERS, appointments.map (fun a => (appt_row a).map cellOf)⟩
  let tmp := mkstemp_path tmpIdx
  let fs1 := fsWrite fs tmp ⟨[], []⟩
  if fault then .failed fs1
  else .ok (os_replace (fsWrite fs1 tmp wb) tmp EXCEL_FILE)

/-- The dict `dict(zip(HEADERS, row))` that `load_excel` rebuilds for a
stored row, exactly as Python sees it: each value is the cell's string,
or Python `None` (`none`) for a valueless cell or a short row. -/
structure PyDict where
  id : Cell
  name : Cell
  address : Cell
  reason : Cell
  datetime : Cell
  created_at : Cell
deriving DecidableEq, Repr

def pyDictOfRow (row : List Cell) : PyDict :=
  ⟨(row.getD 0 none), (row.getD 1 none), (row.getD 2 none),
   (row.getD 3 none), (row.getD 4 none), (row.getD 5 none)⟩

/-- Python truthiness of a reloaded cell: `None` and `""` are falsy. -/
def cellFalsy (c : Cell) : Bool :=
  c = none || c = some ""

/-- The per-row filter of `load_excel`: `if not row or not row[0]:
continue`, i.e. skip empty rows and rows with a falsy first cell. -/
def load_row_dict (row : List Cell) : Option PyDict :=
  match row with
  | [] => none
  | first :: _ => if cellFalsy first then none else some (pyDictOfRow row)

/-- `load_excel()` (`app.py` lines 31–42) at dict level: the empty
collection when the file does not exist, else the dict of every data
row of the active sheet that passes the first-cell filter. -/
def load_excel_dicts (fs : FSys) : List PyDict :=
  match fsRead fs EXCEL_FILE with
  | none => []
  | some wb => wb.rows.filterMap load_row_dict

/-- The `Appt` view of a reloaded dict: Python `None` read as `""`.
This conflation is observation-preserving for every use the handlers
make of a stored field — `fromisoformat` fails on both (`TypeError`
caught like a parse failure in `count_in_hour`), both are falsy, a
string id never equals either, and `save_excel` persists both as a
valueless cell — but not for dict equality, where `None ≠ ""`; the
round-trip claim is therefore stated over `load_excel_dicts`. -/
def apptOfDict (d : PyDict) : Appt :=
  ⟨d.id.getD "", d.name.getD "", d.address.getD "", d.reason.getD "",
   d.datetime.getD "", d.created_at.getD ""⟩

/-- The in-memory collection `load_excel()` leaves behind, in the
`Appt` view. -/
def load_excel (fs : FSys) : List Appt :=
  (load_excel_dicts fs).map apptOfDict

/-- The dict a POST-created in-memory record is: all six values are
Python strings, never `None`. -/
def pyDictOfAppt (a : Appt) : PyDict :=
  ⟨some a.id, some a.name, some a.address, some a.reason,
   some a.datetime, some a.created_at⟩

/-- A record's fields as they come back from a save/load round trip:
every empty-string field has become Python `None`. -/
def noneForEmpty (a : Appt) : PyDict :=
  ⟨cellOf a.id, cellOf a.name, cellOf a.address, cellOf a.reason,
   cellOf a.datetime, cellOf a.created_at⟩

/-! ## The `/api/appointments` handlers (`app.py` lines 75–118) -/

/-- A POST body: the four JSON keys the handler reads, each possibly
absent (`data.get(key, "")`). -/
structure PostBody where
  name : Option String
  address : Option String
  reason : Option String
  datetime : Option String

inductive PostOutcome
  | badRequest (error : String)    -- `jsonify(ok=False, error), 400`
  | conflict (error : String)      -- `jsonify(ok=False, error), 409`
  | created (appointment : Appt)   -- `jsonify(ok=True, appointment), 201`
  | serverError                    -- unhandled exception out of `save_excel`
deriving DecidableEq, Repr

structure PostEffect where
  outcome : PostOutcome
  appointments : List Appt
  fs : FSys
deriving DecidableEq, Repr

/-- The POST branch of `api_appointments` (`app.py` lines 80–108).
`freshId` is the generated `uuid4` string, `nowIso` the
`datetime.utcnow().isoformat()` timestamp, `tmpIdx`/`saveFault` the
nondeterminism of the persistence step. -/
def api_post (freshId nowIso : String) (tmpIdx : Nat) (saveFault : Bool)
    (data : PostBody) (appointments : List Appt) (fs : FSys) : PostEffect :=
  let name := pyStrip (data.name.getD "")
  let address := pyStrip (data.address.getD "")
  let reason := pyStrip (data.reason.getD "")
  let dt := pyStrip (data.datetime.getD "")
  if name = "" || dt = "" then
    ⟨.badRequest "Name and datetime are required.", appointments, fs⟩
  else if (fromisoformat dt).isNone then
    ⟨.badRequest "Invalid datetime format.", appointments, fs⟩
  else if MAX_PER_HOUR ≤ count_in_hour dt appointments then
    ⟨.conflict ("Hour full (max " ++ (toString MAX_PER_HOUR ++ ").")), appointments, fs⟩
  else
    let new_appt : Appt := ⟨freshId, name, address, reason, dt, nowIso⟩
    let appts' := appointments ++ [new_appt]
    match save_excel tmpIdx saveFault appts' fs with
    | .ok fs' => ⟨.created new_appt, appts', fs'⟩
    | .failed fs' => ⟨.serverError, appts', fs'⟩

inductive DeleteOutcome
  | notFound (error : String)      -- `jsonify(ok=False, error), 404`
  | ok                             -- `jsonify(ok=True)`
  | serverError                    -- unhandled exception out of `save_excel`
deriving DecidableEq, Repr

structure DeleteEffect where
  outcome : DeleteOutcome
  appointments : List Appt
  fs : FSys
deriving DecidableEq, Repr

/-- The DELETE branch of `api_appointments` (`app.py` lines 110–118):
filter out every record whose id equals the request's `id` (comparison
against an absent id, `None`, never matches a stored string id), answer
404 if the length did not change, else persist. -/
def api_delete (tmpIdx : Nat) (saveFault : Bool) (appt_id : Option String)
    (appointments : List Appt) (fs : FSys) : DeleteEffect :=
  let remaining := appointments.filter (fun a => some a.id ≠ appt_id)
  if remaining.length = appointments.length then
    ⟨.notFound "Appointment not found", remaining, fs⟩
  else
    match save_excel tmpIdx saveFault remaining fs with
    | .ok fs' => ⟨.ok, remaining, fs'⟩
    | .failed fs' => ⟨.serverError, remaining, fs'⟩

/-- The key comparison of `sorted(appointments, key=lambda a:
a["datetime"])`: lexicographic order on the `datetime` strings. -/
def dtLe (a b : Appt) : Bool := a.datetime ≤ b.datetime

/-- The GET branch of `api_appointments` (`app.py` lines 77–78):
`sorted(appointments, key=lambda a: a["datetime"])` — a stable sort on
the lexicographic order of the `datetime` strings; no state change, so
the handler returns the fresh sorted list alongside the untouched
collection. -/
def api_get (appointments : List Appt) : List Appt × List Appt :=
  (appointments.mergeSort dtLe, appointments)

/-! ## The capacity invariant and reachable states -/

/-- Number of stored records whose `datetime` parses into bucket `b`. -/
def bucketCount (b : Nat × Nat × Nat × Nat) (s : List Appt) : Nat :=
  s.countP (fun a => apptBucket a = some b)

/-- No (year, month, day, hour) bucket holds more than `MAX_PER_HOUR`
records. -/
def hourInvariant (s : List Appt) : Prop :=
  ∀ b, bucketCount b s ≤ MAX_PER_HOUR

/-- Collections reachable from startup: `load_excel` of an arbitrary
file system, followed by any sequence of POST and DELETE requests. -/
inductive Reachable : List Appt → Prop
  | startup (fs : FSys) : Reachable (load_excel fs)
  | post (freshId nowIso : String) (tmpIdx : Nat) (saveFault : Bool)
      (data : PostBody) (s : List Appt) (fs : FSys) :
      Reachable s →
      Reachable (api_post freshId nowIso tmpIdx saveFault data s fs).appointments
  | del (tmpIdx : Nat) (saveFault : Bool) (appt_id : Option String)
      (s : List Appt) (fs : FSys) :
      Reachable s →
      Reachable (api_delete tmpIdx saveFault appt_id s fs).appointments

/-- Collections reachable from a given collection by POST and DELETE
requests. -/
inductive ReachableFrom (s₀ : List Appt) : List Appt → Prop
  | refl : ReachableFrom s₀ s₀
  | post (freshId nowIso : String) (tmpIdx : Nat) (saveFault : Bool)
      (data : PostBody) (s : List Appt) (fs : FSys) :
      ReachableFrom s₀ s →
      ReachableFrom s₀ (api_post freshId nowIso tmpIdx saveFault data s fs).appointments
  | del (tmpIdx : Nat) (saveFault : Bool) (appt_id : Option String)
      (s : List Appt) (fs : FSys) :
      ReachableFrom s₀ s →
      ReachableFrom s₀ (api_delete tmpIdx saveFault appt_id s fs).appointments

/-! ## The spec's claimed datetime format -/

/-- Read one or two leading digits (`strptime`'s `%m`, `%d`, `%H`, `%M`
accept an optional leading zero). -/
def digit12 : List Char → Option (Nat × List Char)
  | a :: b :: rest =>
    if a.isDigit && b.isDigit then some (10 * digitVal a + digitVal b, rest)
    else if a.isDigit then some (digitVal a, b :: rest)
    else none
  | [a] => if a.isDigit then some (digitVal a, []) else none
  | [] => none

/-- Modelled from the spec: acceptance under "the fixed configured
datetime format (`%Y-%m-%dT%H:%M`, minute precision)", i.e. what
`datetime.strptime(s, DATETIME_FORMAT)` would accept — a four-digit
year, literal separators, one- or two-digit month/day/hour/minute in
range, and nothing after the minutes.  The source never performs this
parse; the definition exists to compare the spec's words with the code. -/
def parses_under_DATETIME_FORMAT (s : String) : Bool :=
  match s.data with
  | y1 :: y2 :: y3 :: y4 :: '-' :: rest =>
    if y1.isDigit && y2.isDigit && y3.isDigit && y4.isDigit then
      let y := natOfDigits [y1, y2, y3, y4]
      match digit12 rest with
      | some (m, '-' :: rest2) =>
        match digit12 rest2 with
        | some (d, 'T' :: rest3) =>
          match digit12 rest3 with
          | some (h, ':' :: rest4) =>
            match digit12 rest4 with
            | some (mi, []) =>
              1 ≤ y && 1 ≤ m && m ≤ 12 && 1 ≤ d && d ≤ daysInMonth y m &&
                h ≤ 23 && mi ≤ 59
            | _ => false
          | _ => false
        | _ => false
      | _ => false
    else false
  | _ => false

/-! ## Helper lemmas -/

theorem dtLe_trans (a b c : Appt) (hab : dtLe a b) (hbc : dtLe b c) : dtLe a c := by
  simp only [dtLe, decide_eq_true_eq] at *
  exact le_trans hab hbc

theorem dtLe_total (a b : Appt) : dtLe a b || dtLe b a := by
  simp only [dtLe, Bool.or_eq_true, decide_eq_true_eq]
  exact le_total _ _

theorem countBucket_eq_countP (d : PyDateTime) (l : List Appt) :
    countBucket d l = l.countP (fun a => apptBucket a = some (bucket d)) := by
  induction l with
  | nil => rfl
  | cons a rest ih =>
    simp only [countBucket, List.countP_cons, ih]
    cases ha : fromisoformat a.datetime with
    | none => simp [apptBucket, ha]
    | some adt =>
      by_cases hb : bucket adt = bucket d
      · simp [apptBucket, ha, hb]
        omega
      · simp [apptBucket, ha, hb]

theorem count_in_hour_some {dt : String} {d : PyDateTime}
    (h : fromisoformat dt = some d) (s : List Appt) :
    count_in_hour dt s = s.countP (fun a => apptBucket a = some (bucket d)) := by
  simp [count_in_hour, h, countBucket_eq_countP]

theorem mkstemp_path_ne_excel (n : Nat) : mkstemp_path n ≠ EXCEL_FILE := by
  intro h
  have h2 : (mkstemp_path n).data.head? = EXCEL_FILE.data.head? := by rw [h]
  have h3 : (mkstemp_path n).data.head? = some '/' := rfl
  have h4 : EXCEL_FILE.data.head? = some 'a' := rfl
  rw [h3, h4] at h2
  exact absurd h2 (by decide)

/-! ## Claim theorems -/

/-- C8: `count_in_hour` is a total function (the embedding is a Lean
function, mirroring that both parse failures in the source are caught):
it returns 0 when the candidate string does not parse, and otherwise
counts exactly the stored records whose `datetime` parses into the
candidate's (year, month, day, hour) bucket — records with an
unparsable `datetime` are skipped and never counted. -/
theorem C8_count_in_hour_characterization (c : String) (l : List Appt) :
    (fromisoformat c = none → count_in_hour c l = 0) ∧
    (∀ d, fromisoformat c = some d →
      count_in_hour c l = l.countP (fun a => apptBucket a = some (bucket d))) := by
  constructor
  · intro h
    simp [count_in_hour, h]
  · intro d h
    exact count_in_hour_some h l

def demoFour : List Appt :=
  [⟨"a", "Ann", "", "", "2024-01-01T09:15", "t1"⟩,
   ⟨"b", "Ben", "", "", "2024-01-01T09:30", "t2"⟩,
   ⟨"c", "Cal", "", "", "2024-01-01T09:45", "t3"⟩,
   ⟨"d", "Dee", "", "", "2024-01-01T09:50", "t4"⟩]

theorem C8_witness :
    count_in_hour "totally-bogus" demoFour = 0 ∧
    count_in_hour "2024-01-01T09:05" demoFour =
      demoFour.countP (fun a => apptBucket a = some (bucket ⟨2024, 1, 1, 9, 5, 0⟩)) :=
  ⟨(C8_count_in_hour_characterization "totally-bogus" demoFour).1 (by decide),
   (C8_count_in_hour_characterization "2024-01-01T09:05" demoFour).2
     ⟨2024, 1, 1, 9, 5, 0⟩ (by decide)⟩

/-- C7: for every collection, the GET handler leaves the collection
untouched and returns a permutation of it that is sorted ascending by
the `datetime` string (lexicographically) and stable: the records with
any fixed `datetime` value appear in their original insertion order.
Totality ("always succeeds, empty sequence when there are no records")
is inherent: `api_get` is a Lean function defined on every list. -/
theorem C7_get_sorted_stable (l : List Appt) :
    (api_get l).2 = l ∧
    ((api_get l).1).Perm l ∧
    ((api_get l).1).Pairwise (fun a b => a.datetime ≤ b.datetime) ∧
    ∀ k : String, ((api_get l).1).filter (fun a => a.datetime = k) =
      l.filter (fun a => a.datetime = k) := by
  refine ⟨rfl, List.mergeSort_perm l dtLe, ?_, ?_⟩
  · have h := List.sorted_mergeSort dtLe_trans dtLe_total l
    exact h.imp (fun hab => by simpa [dtLe] using hab)
  · intro k
    have hmemB : ∀ a ∈ l.filter (fun a => a.datetime = k), a.datetime = k := by
      intro a ha
      simpa using (List.mem_filter.mp ha).2
    have hpair : (l.filter (fun a => a.datetime = k)).Pairwise (fun a b => dtLe a b) := by
      rw [List.pairwise_iff_forall_sublist]
      intro a b hsub
      have ha := hmemB a (hsub.subset (by simp))
      have hb := hmemB b (hsub.subset (by simp))
      simp [dtLe, ha, hb]
    have hsubl : List.Sublist (l.filter (fun a => a.datetime = k)) (api_get l).1 :=
      List.sublist_mergeSort dtLe_trans dtLe_total hpair (List.filter_sublist l)
    have h2 : List.Sublist (l.filter (fun a => a.datetime = k))
        (((api_get l).1).filter (fun a => a.datetime = k)) := by
      have hself : (l.filter (fun a => a.datetime = k)).filter (fun a => a.datetime = k) =
          l.filter (fun a => a.datetime = k) := by
        rw [List.filter_eq_self]
        intro a ha
        simpa using hmemB a ha
      have := hsubl.filter (fun a => decide (a.datetime = k))
      rwa [hself] at this
    have h3 : (((api_get l).1).filter (fun a => a.datetime = k)).length =
        (l.filter (fun a => a.datetime = k)).length :=
      ((List.mergeSort_perm l dtLe).filter _).length_eq
    exact (h2.eq_of_length h3.symm).symm

/-! ## Case lemmas for the POST handler -/

/-- The record the POST handler builds on the success path. -/
def newApptOf (freshId nowIso : String) (data : PostBody) : Appt :=
  ⟨freshId, pyStrip (data.name.getD ""), pyStrip (data.address.getD ""),
   pyStrip (data.reason.getD ""), pyStrip (data.datetime.getD ""), nowIso⟩

theorem fromisoformat_empty : fromisoformat "" = none := rfl

theorem api_post_required_eq (freshId nowIso : String) (tmpIdx : Nat) (saveFault : Bool)
    {data : PostBody} (appts : List Appt) (fs : FSys)
    (h : pyStrip (data.name.getD "") = "" ∨ pyStrip (data.datetime.getD "") = "") :
    api_post freshId nowIso tmpIdx saveFault data appts fs =
      ⟨.badRequest "Name and datetime are required.", appts, fs⟩ := by
  rcases h with h | h <;> simp [api_post, h]

theorem api_post_invalid_eq (freshId nowIso : String) (tmpIdx : Nat) (saveFault : Bool)
    {data : PostBody} (appts : List Appt) (fs : FSys)
    (hn : pyStrip (data.name.getD "") ≠ "")
    (hp : fromisoformat (pyStrip (data.datetime.getD "")) = none)
    (hd : pyStrip (data.datetime.getD "") ≠ "") :
    api_post freshId nowIso tmpIdx saveFault data appts fs =
      ⟨.badRequest "Invalid datetime format.", appts, fs⟩ := by
  simp [api_post, hn, hd, hp]

theorem api_post_conflict_eq (freshId nowIso : String) (tmpIdx : Nat) (saveFault : Bool)
    {data : PostBody} (appts : List Appt) (fs : FSys) {d : PyDateTime}
    (hn : pyStrip (data.name.getD "") ≠ "")
    (hp : fromisoformat (pyStrip (data.datetime.getD "")) = some d)
    (hfull : MAX_PER_HOUR ≤ count_in_hour (pyStrip (data.datetime.getD "")) appts) :
    api_post freshId nowIso tmpIdx saveFault data appts fs =
      ⟨.conflict "Hour full (max 4).", appts, fs⟩ := by
  have hd : pyStrip (data.datetime.getD "") ≠ "" := by
    intro h
    rw [h, fromisoformat_empty] at hp
    exact Option.noConfusion hp
  simp [api_post, hn, hd, hp, hfull]
  decide

theorem api_post_success_eq (freshId nowIso : String) (tmpIdx : Nat) (saveFault : Bool)
    {data : PostBody} (appts : List Appt) (fs : FSys) {d : PyDateTime}
    (hn : pyStrip (data.name.getD "") ≠ "")
    (hp : fromisoformat (pyStrip (data.datetime.getD "")) = some d)
    (hcap : count_in_hour (pyStrip (data.datetime.getD "")) appts < MAX_PER_HOUR) :
    api_post freshId nowIso tmpIdx saveFault data appts fs =
      ⟨(if saveFault then .serverError else .created (newApptOf freshId nowIso data)),
       appts ++ [newApptOf freshId nowIso data],
       fsOf (save_excel tmpIdx saveFault (appts ++ [newApptOf freshId nowIso data]) fs)⟩ := by
  have hd : pyStrip (data.datetime.getD "") ≠ "" := by
    intro h
    rw [h, fromisoformat_empty] at hp
    exact Option.noConfusion hp
  have hcap' : ¬ MAX_PER_HOUR ≤ count_in_hour (pyStrip (data.datetime.getD "")) appts :=
    not_le.mpr hcap
  cases saveFault <;> simp [api_post, hn, hd, hp, hcap', newApptOf, save_excel, fsOf]

/-! ## Claims about the POST handler -/

/-- C2: when the request's stripped name is non-empty, its stripped
datetime parses, and that datetime's (year, month, day, hour) bucket
already holds `MAX_PER_HOUR` (= 4) records, the POST handler answers
the conflict-class error "Hour full (max 4)." and returns with the
collection and the file system exactly as they were: nothing is
appended and no write happens. -/
theorem C2_insert_full_bucket (freshId nowIso : String) (tmpIdx : Nat) (saveFault : Bool)
    (data : PostBody) (appts : List Appt) (fs : FSys)
    (hname : pyStrip (data.name.getD "") ≠ "")
    (hdt : (fromisoformat (pyStrip (data.datetime.getD ""))).isSome)
    (hfull : MAX_PER_HOUR ≤ count_in_hour (pyStrip (data.datetime.getD "")) appts) :
    api_post freshId nowIso tmpIdx saveFault data appts fs =
      ⟨.conflict "Hour full (max 4).", appts, fs⟩ := by
  obtain ⟨d, hd⟩ := Option.isSome_iff_exists.mp hdt
  exact api_post_conflict_eq freshId nowIso tmpIdx saveFault appts fs hname hd hfull

theorem C2_witness :
    api_post "e" "2024-05-05T08:00:00" 0 false
        ⟨some "Eve", none, none, some "2024-01-01T09:05"⟩ demoFour [] =
      ⟨.conflict "Hour full (max 4).", demoFour, []⟩ :=
  C2_insert_full_bucket "e" "2024-05-05T08:00:00" 0 false
    ⟨some "Eve", none, none, some "2024-01-01T09:05"⟩ demoFour []
    (by decide) (by decide) (by decide)

/-- C3 counterexample: `"2024-01-01T09:15:30"` does not parse under the
configured `DATETIME_FORMAT` (`%Y-%m-%dT%H:%M`, minute precision — the
trailing seconds are not consumed), so the claim demands the insert
fail with "Invalid datetime format."; but the handler validates with
`datetime.fromisoformat`, which accepts it, and the insert succeeds. -/
theorem C3_counterexample :
    parses_under_DATETIME_FORMAT "2024-01-01T09:15:30" = false ∧
    (api_post "id-1" "2024-05-01T00:00:00" 0 false
        ⟨some "Alice", none, none, some "2024-01-01T09:15:30"⟩ [] []).outcome =
      PostOutcome.created
        ⟨"id-1", "Alice", "", "", "2024-01-01T09:15:30", "2024-05-01T00:00:00"⟩ := by
  constructor
  · decide
  · decide

/-- C3 (amended): the POST handler answers "Name and datetime are
required." exactly when the stripped name or stripped datetime is
empty, and "Invalid datetime format." exactly when both are non-empty
but the datetime is rejected by `datetime.fromisoformat` — not by the
configured `DATETIME_FORMAT`, which no code path uses; in every such
failure case the collection and the file system are unchanged. -/
theorem C3_amended_validation (freshId nowIso : String) (tmpIdx : Nat) (saveFault : Bool)
    (data : PostBody) (appts : List Appt) (fs : FSys) :
    ((api_post freshId nowIso tmpIdx saveFault data appts fs).outcome =
        .badRequest "Name and datetime are required." ↔
      (pyStrip (data.name.getD "") = "" ∨ pyStrip (data.datetime.getD "") = "")) ∧
    ((api_post freshId nowIso tmpIdx saveFault data appts fs).outcome =
        .badRequest "Invalid datetime format." ↔
      (pyStrip (data.name.getD "") ≠ "" ∧ pyStrip (data.datetime.getD "") ≠ "" ∧
        fromisoformat (pyStrip (data.datetime.getD "")) = none)) ∧
    ((pyStrip (data.name.getD "") = "" ∨ pyStrip (data.datetime.getD "") = "" ∨
        fromisoformat (pyStrip (data.datetime.getD "")) = none) →
      (api_post freshId nowIso tmpIdx saveFault data appts fs).appointments = appts ∧
      (api_post freshId nowIso tmpIdx saveFault data appts fs).fs = fs) := by
  by_cases h1 : pyStrip (data.name.getD "") = "" ∨ pyStrip (data.datetime.getD "") = ""
  · rw [api_post_required_eq freshId nowIso tmpIdx saveFault appts fs h1]
    refine ⟨iff_of_true rfl h1, iff_of_false (by simp) ?_, fun _ => ⟨rfl, rfl⟩⟩
    rintro ⟨hn, hd, -⟩
    rcases h1 with h | h
    · exact hn h
    · exact hd h
  · push_neg at h1
    obtain ⟨hn, hd⟩ := h1
    by_cases h2 : fromisoformat (pyStrip (data.datetime.getD "")) = none
    · rw [api_post_invalid_eq freshId nowIso tmpIdx saveFault appts fs hn h2 hd]
      refine ⟨iff_of_false (by simp) ?_, iff_of_true rfl ⟨hn, hd, h2⟩, fun _ => ⟨rfl, rfl⟩⟩
      rintro (h | h)
      · exact hn h
      · exact hd h
    · obtain ⟨dd, hdd⟩ := Option.ne_none_iff_exists'.mp h2
      have hthird : (pyStrip (data.name.getD "") = "" ∨ pyStrip (data.datetime.getD "") = "" ∨
          fromisoformat (pyStrip (data.datetime.getD "")) = none) → False := by
        rintro (h | h | h)
        · exact hn h
        · exact hd h
        · exact h2 h
      by_cases h3 : MAX_PER_HOUR ≤ count_in_hour (pyStrip (data.datetime.getD "")) appts
      · rw [api_post_conflict_eq freshId nowIso tmpIdx saveFault appts fs hn hdd h3]
        refine ⟨iff_of_false (by simp) (fun h => hthird (h.imp_right Or.inl)),
                iff_of_false (by simp) (fun h => h2 h.2.2),
                fun h => absurd h hthird⟩
      · rw [api_post_success_eq freshId nowIso tmpIdx saveFault appts fs hn hdd (not_le.mp h3)]
        refine ⟨iff_of_false ?_ (fun h => hthird (h.imp_right Or.inl)),
                iff_of_false ?_ (fun h => h2 h.2.2),
                fun h => absurd h hthird⟩
        · cases saveFault <;> simp
        · cases saveFault <;> simp

theorem C3_witness :
    (api_post "w" "now" 0 false ⟨some "  ", none, none, some "2024-01-01T09:15"⟩
        demoFour []).appointments = demoFour ∧
    (api_post "w" "now" 0 false ⟨some "  ", none, none, some "2024-01-01T09:15"⟩
        demoFour []).fs = [] :=
  (C3_amended_validation "w" "now" 0 false
      ⟨some "  ", none, none, some "2024-01-01T09:15"⟩ demoFour []).2.2
    (Or.inl (by decide))

/-- C10: a successful insert appends exactly one record whose `name`,
`address`, `reason` and `datetime` are the request values with leading
and trailing whitespace stripped (an absent `address` or `reason`
defaults to the empty string), whose `id` is the `uuid4` string
generated for this request and whose `created_at` is the
`datetime.utcnow().isoformat()` timestamp of the insertion — both
modelled as the handler's nondeterministic inputs `freshId`/`nowIso`. -/
theorem C10_created_record_fields (freshId nowIso : String) (tmpIdx : Nat)
    (data : PostBody) (appts : List Appt) (fs : FSys) (d : PyDateTime)
    (hname : pyStrip (data.name.getD "") ≠ "")
    (hdt : fromisoformat (pyStrip (data.datetime.getD "")) = some d)
    (hcap : count_in_hour (pyStrip (data.datetime.getD "")) appts < MAX_PER_HOUR) :
    (api_post freshId nowIso tmpIdx false data appts fs).outcome =
      .created ⟨freshId, pyStrip (data.name.getD ""), pyStrip (data.address.getD ""),
                pyStrip (data.reason.getD ""), pyStrip (data.datetime.getD ""), nowIso⟩ ∧
    (api_post freshId nowIso tmpIdx false data appts fs).appointments =
      appts ++ [⟨freshId, pyStrip (data.name.getD ""), pyStrip (data.address.getD ""),
                 pyStrip (data.reason.getD ""), pyStrip (data.datetime.getD ""), nowIso⟩] ∧
    (data.address = none → pyStrip (data.address.getD "") = "") ∧
    (data.reason = none → pyStrip (data.reason.getD "") = "") := by
  rw [api_post_success_eq freshId nowIso tmpIdx false appts fs hname hdt hcap]
  refine ⟨by simp [newApptOf], by simp [newApptOf], ?_, ?_⟩
  · intro h
    rw [h]
    rfl
  · intro h
    rw [h]
    rfl

theorem C10_witness :
    (api_post "uuid-77" "2024-05-05T08:00:00" 1 false
        ⟨some " Eve Adams ", some " 12 Main St ", none, some " 2024-01-02T10:05 "⟩
        demoFour []).outcome =
      .created ⟨"uuid-77", "Eve Adams", "12 Main St", "", "2024-01-02T10:05",
                "2024-05-05T08:00:00"⟩ := by
  have h := C10_created_record_fields "uuid-77" "2024-05-05T08:00:00" 1
      ⟨some " Eve Adams ", some " 12 Main St ", none, some " 2024-01-02T10:05 "⟩
      demoFour [] ⟨2024, 1, 2, 10, 5, 0⟩ (by decide) (by decide) (by decide)
  exact h.1.trans (by decide)

/-! ## Case lemmas for the DELETE handler and the file system -/

theorem fsRead_write_ne (fs : FSys) (p q : String) (c : ExcelFile) (h : p ≠ q) :
    fsRead (fsWrite fs p c) q = fsRead fs q := by
  simp [fsWrite, fsRead, h]

theorem filter_del_length_lt (delId : String) (appts : List Appt)
    (hfound : ∃ a ∈ appts, a.id = delId) :
    (appts.filter (fun a => some a.id ≠ some delId)).length < appts.length := by
  obtain ⟨a, ha, hid⟩ := hfound
  have h1 : (appts.filter (fun x => some x.id ≠ some delId)).length =
      appts.countP (fun x => some x.id ≠ some delId) :=
    (List.countP_eq_length_filter _ _).symm
  have h2 := List.length_eq_countP_add_countP
    (fun x : Appt => decide (some x.id ≠ some delId)) appts
  have h3 : 0 < appts.countP
      (fun x => ¬ ((fun x : Appt => decide (some x.id ≠ some delId)) x = true)) :=
    List.countP_pos_iff.mpr ⟨a, ha, by simp [hid]⟩
  rw [h1]
  simp only [decide_not, Bool.decide_eq_true, Bool.not_not] at h2 h3 ⊢
  omega

theorem api_delete_found_eq (tmpIdx : Nat) (saveFault : Bool) (delId : String)
    (appts : List Appt) (fs : FSys)
    (hfound : ∃ a ∈ appts, a.id = delId) :
    api_delete tmpIdx saveFault (some delId) appts fs =
      ⟨if saveFault then .serverError else .ok,
       appts.filter (fun a => some a.id ≠ some delId),
       fsOf (save_excel tmpIdx saveFault
         (appts.filter (fun a => some a.id ≠ some delId)) fs)⟩ := by
  have hne : ¬ ((appts.filter (fun a => some a.id ≠ some delId)).length = appts.length) :=
    Nat.ne_of_lt (filter_del_length_lt delId appts hfound)
  simp only [api_delete]
  rw [if_neg hne]
  cases saveFault <;> simp [save_excel, fsOf]

theorem api_delete_notFound_eq (tmpIdx : Nat) (saveFault : Bool) (delId : String)
    (appts : List Appt) (fs : FSys)
    (habs : ∀ a ∈ appts, a.id ≠ delId) :
    api_delete tmpIdx saveFault (some delId) appts fs =
      ⟨.notFound "Appointment not found", appts, fs⟩ := by
  have hfil : appts.filter (fun a => some a.id ≠ some delId) = appts :=
    List.filter_eq_self.mpr (fun a ha => by simp [habs a ha])
  simp only [api_delete]
  rw [hfil]
  simp

theorem fsRead_save_excel_ok (tmpIdx : Nat) (appts : List Appt) (fs : FSys) :
    fsRead (fsOf (save_excel tmpIdx false appts fs)) EXCEL_FILE =
      some ⟨HEADERS, appts.map (fun a => (appt_row a).map cellOf)⟩ := by
  simp [save_excel, fsOf, os_replace, fsWrite, fsRead, fsErase]

/-! ## Claims about persistence failure and `save_excel` -/

/-- C9: when the workbook write onto the temp file raises after the
in-memory mutation, the mutation is not rolled back: after a POST the
collection keeps the appended record, after a DELETE it keeps the
filtered state (strictly fewer records, none with the deleted id); in
both cases the durable `EXCEL_FILE` still holds its previous content
and the handler ends in the unhandled-exception outcome that Flask
surfaces as a server error. -/
theorem C9_no_rollback_on_save_failure (freshId nowIso : String) (tmpIdx : Nat)
    (data : PostBody) (delId : String) (appts : List Appt) (fs : FSys) (d : PyDateTime) :
    ((pyStrip (data.name.getD "") ≠ "" →
      fromisoformat (pyStrip (data.datetime.getD "")) = some d →
      count_in_hour (pyStrip (data.datetime.getD "")) appts < MAX_PER_HOUR →
      (api_post freshId nowIso tmpIdx true data appts fs).outcome = .serverError ∧
      (api_post freshId nowIso tmpIdx true data appts fs).appointments =
        appts ++ [newApptOf freshId nowIso data] ∧
      fsRead (api_post freshId nowIso tmpIdx true data appts fs).fs EXCEL_FILE =
        fsRead fs EXCEL_FILE)) ∧
    ((∃ a ∈ appts, a.id = delId) →
      (api_delete tmpIdx true (some delId) appts fs).outcome = .serverError ∧
      (api_delete tmpIdx true (some delId) appts fs).appointments.length < appts.length ∧
      (∀ a ∈ (api_delete tmpIdx true (some delId) appts fs).appointments, a.id ≠ delId) ∧
      fsRead (api_delete tmpIdx true (some delId) appts fs).fs EXCEL_FILE =
        fsRead fs EXCEL_FILE) := by
  constructor
  · intro h1 h2 h3
    rw [api_post_success_eq freshId nowIso tmpIdx true appts fs h1 h2 h3]
    refine ⟨by simp, rfl, ?_⟩
    simp [save_excel, fsOf, fsWrite, fsRead, mkstemp_path_ne_excel tmpIdx]
  · intro hfound
    rw [api_delete_found_eq tmpIdx true delId appts fs hfound]
    refine ⟨by simp, filter_del_length_lt delId appts hfound, ?_, ?_⟩
    · intro a ha
      have := (List.mem_filter.mp ha).2
      simpa using this
    · simp [save_excel, fsOf, fsWrite, fsRead, mkstemp_path_ne_excel tmpIdx]

theorem C9_witness :
    (api_post "u9" "now9" 2 true ⟨some "Eve", none, none, some "2024-01-02T10:05"⟩
        demoFour [(EXCEL_FILE, ⟨HEADERS, demoFour.map (fun a => (appt_row a).map cellOf)⟩)]).outcome = .serverError ∧
    (api_delete 2 true (some "b") demoFour
        [(EXCEL_FILE, ⟨HEADERS, demoFour.map (fun a => (appt_row a).map cellOf)⟩)]).outcome = .serverError := by
  have h := C9_no_rollback_on_save_failure "u9" "now9" 2
      ⟨some "Eve", none, none, some "2024-01-02T10:05"⟩ "b" demoFour
      [(EXCEL_FILE, ⟨HEADERS, demoFour.map (fun a => (appt_row a).map cellOf)⟩)] ⟨2024, 1, 2, 10, 5, 0⟩
  exact ⟨(h.1 (by decide) (by decide) (by decide)).1,
         (h.2 ⟨⟨"b", "Ben", "", "", "2024-01-01T09:30", "t2"⟩, by decide, rfl⟩).1⟩

/-- C4 counterexample: the temp file `save_excel` creates lives in the
system temp directory — `tempfile.mkstemp` is called without a `dir`
argument — while the target `appointments.xlsx` is a relative path in
the working directory, so the temporary file is not created "in the
same directory as the target path" as the claim states. -/
theorem C4_counterexample :
    save_excel 0 true [] [] = .failed [(mkstemp_path 0, ⟨[], []⟩)] ∧
    posix_dirname (mkstemp_path 0) = "/tmp" ∧
    posix_dirname EXCEL_FILE = "" ∧
    posix_dirname (mkstemp_path 0) ≠ posix_dirname EXCEL_FILE := by
  refine ⟨by decide, by decide, by decide, by decide⟩

/-- C4 (amended): `save_excel` writes the full collection to a fresh
temporary file in the system default temp directory (not the target's
directory) and then atomically renames it over `EXCEL_FILE` with
`os.replace`; a fault during the workbook-write step leaves the
previous durable file untouched, byte for byte, because the rename is
the only step that mutates the target path. -/
theorem C4_amended_two_phase (tmpIdx : Nat) (appts : List Appt) (fs : FSys) :
    (∃ fs', save_excel tmpIdx false appts fs = .ok fs' ∧
      fsRead fs' EXCEL_FILE =
        some ⟨HEADERS, appts.map (fun a => (appt_row a).map cellOf)⟩) ∧
    (∃ fs', save_excel tmpIdx true appts fs = .failed fs' ∧
      fsRead fs' EXCEL_FILE = fsRead fs EXCEL_FILE) := by
  constructor
  · refine ⟨fsOf (save_excel tmpIdx false appts fs), by simp [save_excel, fsOf], ?_⟩
    exact fsRead_save_excel_ok tmpIdx appts fs
  · refine ⟨fsWrite fs (mkstemp_path tmpIdx) ⟨[], []⟩, by simp [save_excel], ?_⟩
    exact fsRead_write_ne fs (mkstemp_path tmpIdx) EXCEL_FILE ⟨[], []⟩
      (mkstemp_path_ne_excel tmpIdx)

/-! ## Claims about DELETE, the capacity invariant, and the round trip -/

theorem filter_del_length_succ (delId : String) : ∀ (appts : List Appt),
    (appts.map Appt.id).Nodup → (∃ a ∈ appts, a.id = delId) →
    (appts.filter (fun a => some a.id ≠ some delId)).length + 1 = appts.length := by
  intro appts
  induction appts with
  | nil =>
    rintro - ⟨a, ha, -⟩
    exact absurd ha (List.not_mem_nil a)
  | cons b rest ih =>
    intro hnodup hfound
    rw [List.map_cons, List.nodup_cons] at hnodup
    obtain ⟨hbnot, hnodup'⟩ := hnodup
    by_cases hb : b.id = delId
    · have hrest : rest.filter (fun a => some a.id ≠ some delId) = rest := by
        rw [List.filter_eq_self]
        intro a ha
        have hne : a.id ≠ delId := by
          intro he
          exact hbnot (List.mem_map.mpr ⟨a, ha, he.symm ▸ hb.symm ▸ rfl⟩)
        simp [hne]
      have hpb : (decide (some b.id ≠ some delId)) = false := by simp [hb]
      rw [List.filter_cons, hpb]
      simp only [Bool.false_eq_true, if_false, hrest, List.length_cons]
    · have hfound' : ∃ a ∈ rest, a.id = delId := by
        obtain ⟨a, ha, hid⟩ := hfound
        rcases List.mem_cons.mp ha with h | h
        · exact absurd (h ▸ hid) hb
        · exact ⟨a, h, hid⟩
      have hih := ih hnodup' hfound'
      have hpb : (decide (some b.id ≠ some delId)) = true := by simp [hb]
      rw [List.filter_cons, hpb, if_pos rfl]
      simp only [List.length_cons]
      omega

/-- C6: for a collection whose ids are pairwise distinct (the spec's
id-uniqueness invariant; every id the handler generates is a fresh
`uuid4`), deleting a present id succeeds, removes exactly one record,
and the id no longer appears in a subsequent GET listing; deleting an
absent id answers the not-found error "Appointment not found" and
leaves the collection and the file system untouched — no write occurs,
so repeating the delete is safe. -/
theorem C6_delete_behavior (tmpIdx : Nat) (delId : String) (appts : List Appt) (fs : FSys)
    (hnodup : (appts.map Appt.id).Nodup) :
    ((∃ a ∈ appts, a.id = delId) →
      (api_delete tmpIdx false (some delId) appts fs).outcome = .ok ∧
      (api_delete tmpIdx false (some delId) appts fs).appointments.length + 1 =
        appts.length ∧
      ∀ a ∈ (api_get (api_delete tmpIdx false (some delId) appts fs).appointments).1,
        a.id ≠ delId) ∧
    ((∀ a ∈ appts, a.id ≠ delId) →
      api_delete tmpIdx false (some delId) appts fs =
        ⟨.notFound "Appointment not found", appts, fs⟩) := by
  constructor
  · intro hfound
    rw [api_delete_found_eq tmpIdx false delId appts fs hfound]
    refine ⟨by simp, filter_del_length_succ delId appts hnodup hfound, ?_⟩
    intro a ha
    have ha' : a ∈ appts.filter (fun a => some a.id ≠ some delId) :=
      List.mem_mergeSort.mp ha
    have := (List.mem_filter.mp ha').2
    simpa using this
  · exact api_delete_notFound_eq tmpIdx false delId appts fs

theorem C6_witness :
    (api_delete 5 false (some "b") demoFour []).outcome = .ok ∧
    (api_delete 5 false (some "b") demoFour []).appointments.length + 1 =
      demoFour.length ∧
    api_delete 5 false (some "zz") demoFour [] =
      ⟨.notFound "Appointment not found", demoFour, []⟩ := by
  have h1 := C6_delete_behavior 5 "b" demoFour [] (by decide)
  have h2 := C6_delete_behavior 5 "zz" demoFour [] (by decide)
  have hfound : ∃ a ∈ demoFour, a.id = "b" :=
    ⟨⟨"b", "Ben", "", "", "2024-01-01T09:30", "t2"⟩, by decide, rfl⟩
  exact ⟨(h1.1 hfound).1, (h1.1 hfound).2.1, h2.2 (by decide)⟩

theorem api_delete_appointments_eq (tmpIdx : Nat) (saveFault : Bool)
    (appt_id : Option String) (s : List Appt) (fs : FSys) :
    (api_delete tmpIdx saveFault appt_id s fs).appointments =
      s.filter (fun a => some a.id ≠ appt_id) := by
  simp only [api_delete]
  split
  · rfl
  · split <;> rfl

theorem api_post_preserves_hourInvariant (freshId nowIso : String) (tmpIdx : Nat)
    (saveFault : Bool) (data : PostBody) (s : List Appt) (fs : FSys)
    (h : hourInvariant s) :
    hourInvariant (api_post freshId nowIso tmpIdx saveFault data s fs).appointments := by
  by_cases h1 : pyStrip (data.name.getD "") = "" ∨ pyStrip (data.datetime.getD "") = ""
  · rw [api_post_required_eq freshId nowIso tmpIdx saveFault s fs h1]
    exact h
  · push_neg at h1
    obtain ⟨hn, hd⟩ := h1
    cases hp : fromisoformat (pyStrip (data.datetime.getD "")) with
    | none =>
      rw [api_post_invalid_eq freshId nowIso tmpIdx saveFault s fs hn hp hd]
      exact h
    | some d =>
      by_cases h3 : MAX_PER_HOUR ≤ count_in_hour (pyStrip (data.datetime.getD "")) s
      · rw [api_post_conflict_eq freshId nowIso tmpIdx saveFault s fs hn hp h3]
        exact h
      · rw [api_post_success_eq freshId nowIso tmpIdx saveFault s fs hn hp (not_le.mp h3)]
        intro b
        show bucketCount b (s ++ [newApptOf freshId nowIso data]) ≤ MAX_PER_HOUR
        rw [bucketCount, List.countP_append]
        by_cases hb : bucket d = b
        · have hcnt : s.countP (fun a => apptBucket a = some b) < MAX_PER_HOUR := by
            have hc := count_in_hour_some hp s
            rw [hb] at hc
            rw [← hc]
            exact not_le.mp h3
          have hone : List.countP (fun a => apptBucket a = some b)
              [newApptOf freshId nowIso data] ≤ 1 := by
            exact le_trans (List.countP_le_length _) (by simp)
          omega
        · have hzero : List.countP (fun a => apptBucket a = some b)
              [newApptOf freshId nowIso data] = 0 := by
            simp [newApptOf, apptBucket, hp, hb]
          rw [hzero]
          have hs := h b
          rw [bucketCount] at hs
          omega

theorem api_delete_preserves_hourInvariant (tmpIdx : Nat) (saveFault : Bool)
    (appt_id : Option String) (s : List Appt) (fs : FSys)
    (h : hourInvariant s) :
    hourInvariant (api_delete tmpIdx saveFault appt_id s fs).appointments := by
  intro b
  rw [api_delete_appointments_eq tmpIdx saveFault appt_id s fs]
  exact le_trans ((List.filter_sublist s).countP_le _) (h b)

def overfullRow (i : String) : List Cell :=
  [some i, some "P", none, none, some "2024-01-01T09:00", some "t"]

def overfullFS : FSys :=
  [(EXCEL_FILE, ⟨HEADERS,
    [overfullRow "r1", overfullRow "r2", overfullRow "r3",
     overfullRow "r4", overfullRow "r5"]⟩)]

/-- C1 counterexample: `load_excel` performs no capacity check, so a
startup from a backing file that already holds five rows in the
2024-01-01 09:00 bucket reaches a state in which that bucket exceeds
the claimed bound `MAX_PER_HOUR` = 4. -/
theorem C1_counterexample :
    Reachable (load_excel overfullFS) ∧ ¬ hourInvariant (load_excel overfullFS) := by
  refine ⟨Reachable.startup overfullFS, fun h => ?_⟩
  have h5 : bucketCount (2024, 1, 1, 9) (load_excel overfullFS) = 5 := by decide
  have h4 := h (2024, 1, 1, 9)
  rw [h5] at h4
  exact absurd h4 (by decide)

/-- C1 (amended): every POST and DELETE request preserves the per-hour
capacity bound, so every collection reachable by request handling from
a state that satisfies it — in particular from the empty collection of
a first run, when no backing file exists — still satisfies it.  The
amendment is forced because `load_excel` itself checks nothing: startup
from an overfull file violates the bound (see the counterexample). -/
theorem C1_amended_invariant_preserved (s₀ s : List Appt)
    (h₀ : hourInvariant s₀) (h : ReachableFrom s₀ s) : hourInvariant s := by
  induction h with
  | refl => exact h₀
  | post freshId nowIso tmpIdx saveFault data s' fs hr ih =>
    exact api_post_preserves_hourInvariant freshId nowIso tmpIdx saveFault data s' fs ih
  | del tmpIdx saveFault appt_id s' fs hr ih =>
    exact api_delete_preserves_hourInvariant tmpIdx saveFault appt_id s' fs ih

theorem C1_witness :
    hourInvariant (api_post "u1" "t1" 0 false
      ⟨some "Al", none, none, some "2024-01-01T09:15"⟩ [] []).appointments :=
  C1_amended_invariant_preserved [] _ (fun b => by simp [bucketCount])
    (ReachableFrom.post "u1" "t1" 0 false
      ⟨some "Al", none, none, some "2024-01-01T09:15"⟩ [] [] ReachableFrom.refl)

def emptyIdColl : List Appt := [⟨"", "Bob", "", "", "2024-01-01T09:00", "t0"⟩]

/-- C5 counterexample: a record whose `id` is the empty string is
written out by `save_excel` but dropped by `load_excel`'s first-cell
filter (`if not row or not row[0]: continue`), so the reloaded
collection is not set-equal to the one that was saved. -/
theorem C5_counterexample :
    ¬ (load_excel (fsOf (save_excel 0 false emptyIdColl []))).Perm emptyIdColl := by
  intro hp
  have hlen := hp.length_eq
  have h0 : load_excel (fsOf (save_excel 0 false emptyIdColl [])) = [] := by decide
  rw [h0] at hlen
  exact absurd hlen (by decide)

theorem filterMap_load_row_dict_map (l : List Appt) (hid : ∀ a ∈ l, a.id ≠ "") :
    (l.map (fun a => (appt_row a).map cellOf)).filterMap load_row_dict =
      l.map noneForEmpty := by
  induction l with
  | nil => rfl
  | cons a rest ih =>
    have ha : a.id ≠ "" := hid a (List.mem_cons_self a rest)
    have hrow : load_row_dict ((appt_row a).map cellOf) = some (noneForEmpty a) := by
      simp [load_row_dict, appt_row, cellOf, cellFalsy, pyDictOfRow, noneForEmpty, ha]
    rw [List.map_cons, List.filterMap_cons, hrow,
      ih (fun b hb => hid b (List.mem_cons_of_mem a hb))]
    rfl

/-- C5 (amended): for every collection in which each record has a
non-empty `id` — true of every record the application creates, whose
ids are `uuid4` strings — `save_excel` followed by `load_excel` drops
nothing and rebuilds, in order, the dict of each saved record with
every empty-string field read back as Python `None` (openpyxl persists
an empty-string cell as a valueless cell, which reloads as `None`).
The reloaded dicts equal the saved records' dicts — the original
set-equality round trip — exactly on records none of whose fields is
the empty string; a record with an empty `id` is dropped outright (see
the counterexample), and one with an empty `address`/`reason` (the
default for an insert that omits them) reloads as a different dict. -/
theorem C5_amended_roundtrip (tmpIdx : Nat) (appts : List Appt) (fs : FSys)
    (hid : ∀ a ∈ appts, a.id ≠ "") :
    load_excel_dicts (fsOf (save_excel tmpIdx false appts fs)) =
      appts.map noneForEmpty ∧
    ((∀ a ∈ appts, a.name ≠ "" ∧ a.address ≠ "" ∧ a.reason ≠ "" ∧
        a.datetime ≠ "" ∧ a.created_at ≠ "") →
      load_excel_dicts (fsOf (save_excel tmpIdx false appts fs)) =
        appts.map pyDictOfAppt) := by
  have hread := fsRead_save_excel_ok tmpIdx appts fs
  have h1 : load_excel_dicts (fsOf (save_excel tmpIdx false appts fs)) =
      appts.map noneForEmpty := by
    simp only [load_excel_dicts, hread]
    exact filterMap_load_row_dict_map appts hid
  refine ⟨h1, fun hfull => ?_⟩
  rw [h1]
  apply List.map_congr_left
  intro a ha
  obtain ⟨hn, had, hr, hd, hc⟩ := hfull a ha
  simp [noneForEmpty, pyDictOfAppt, cellOf, hid a ha, hn, had, hr, hd, hc]

def demoFull : List Appt :=
  [⟨"a", "Ann", "1 Elm Road", "checkup", "2024-01-01T09:15", "t1"⟩,
   ⟨"b", "Ben", "2 Oak Road", "cough", "2024-01-01T10:30", "t2"⟩]

theorem C5_witness :
    load_excel_dicts (fsOf (save_excel 7 false demoFour [])) =
      demoFour.map noneForEmpty ∧
    load_excel_dicts (fsOf (save_excel 8 false demoFull [])) =
      demoFull.map pyDictOfAppt :=
  ⟨(C5_amended_roundtrip 7 demoFour [] (by decide)).1,
   (C5_amended_roundtrip 8 demoFull [] (by decide)).2 (by decide)⟩
